import Mathlib

/-!
Verification of the upcoming-livestreams widget (`src/youtube-upcoming.js`).

The development shallowly embeds the functionally relevant parts of the
widget: the normalization map, the freshness filter and sort comparator of
`fetchUpcoming`, the `localStorage` cache (`readCache` / `writeCache`), the
optimistic cache load (`loadFromCache`), the empty-state rendering branch of
`renderGrid`, the `MAX_RESULTS` configuration clamp, and the control flow of
the `fetchUpcoming` orchestrator.

Modelling conventions:
* Timestamps are `Int` milliseconds since the epoch, the value of
  `new Date(s).getTime()` / `Date.now()`; the ISO-string representation and
  its parsing are abstracted away, a nullable time field is `Option Int`.
* The JS comparator `(a, b) => ta - tb` uses `Infinity` for a missing
  scheduled time.  ECMAScript's `SortCompare` coerces a `NaN` comparator
  result (arising from `Infinity - Infinity`) to `+0`, i.e. "equal", and
  `Array.prototype.sort` is required to be stable, so the comparator induces
  the total preorder `schedKeyLe` below ("no scheduled time" is greatest,
  and all such records compare equal) and the sort is modelled by the stable
  `List.mergeSort` under that preorder.
* `localStorage` holds a single record per channel key; since the widget
  uses one fixed channel key, the store is modelled as `Option CacheEntry`.
* Remote calls are modelled by their observable outcome: `RemoteResp` is
  either a failure (non-ok HTTP status, or a network error rejecting the
  `fetch` promise) or a successful item list.
-/

namespace VUMCLive

/-- Normalized event record, as built by the `.map` step of `fetchUpcoming`
(lines 191-206 of `src/youtube-upcoming.js`). -/
structure Event where
  id : String
  title : String
  desc : String
  thumb : String
  scheduled : Option Int
  actualStart : Option Int
  actualEnd : Option Int
  channelTitle : String
deriving Repr, DecidableEq

/-- One hour in milliseconds (`60 * 60 * 1000`). -/
def msPerHour : Int := 60 * 60 * 1000

/-- `const hidePastMs = HIDE_PAST_HOURS * 60 * 60 * 1000`; the hour count is
`Math.max(0, ...)`-clamped in the source, hence a `Nat`. -/
def hidePastMs (hidePastHours : Nat) : Int := (hidePastHours : Int) * msPerHour

/-- The filter predicate of `fetchUpcoming` (lines 207-216):
`if (ev.actualEnd) return false;` then
`if (ev.scheduled) { if (!ev.actualStart && (schedMs + hidePastMs) < now) return false; }`
then `return true;`. -/
def freshPred (now : Int) (hideMs : Int) (ev : Event) : Bool :=
  if ev.actualEnd.isSome then false
  else
    match ev.scheduled with
    | some schedMs =>
        if ev.actualStart.isNone && decide (schedMs + hideMs < now) then false else true
    | none => true

/-- The total preorder induced by the sort comparator (lines 217-221):
`ta - tb` with `Infinity` for a missing scheduled time, `NaN` (from
`Infinity - Infinity`) coerced to `+0` by `SortCompare`. -/
def schedKeyLe (a b : Event) : Bool :=
  match a.scheduled, b.scheduled with
  | some ta, some tb => decide (ta ≤ tb)
  | some _, none => true
  | none, some _ => false
  | none, none => true

/-- The freshness filter and sorter: the `.filter(...).sort(...)` pipeline of
`fetchUpcoming`, applied to already-normalized records. -/
def filterSort (now : Int) (hidePastHours : Nat) (l : List Event) : List Event :=
  (l.filter (freshPred now (hidePastMs hidePastHours))).mergeSort schedKeyLe

/-- `const CACHE_MS = 5 * 60 * 1000;` -/
def CACHE_MS : Int := 5 * 60 * 1000

/-- The JSON record `{ ts, data }` stored under the channel cache key. -/
structure CacheEntry where
  ts : Int
  data : List Event
deriving Repr, DecidableEq

/-- `readCache` (lines 88-96): absent entry gives `null`; an entry older than
`CACHE_MS` gives `null`; otherwise the stored payload.  A parse failure is
modelled by the absent case, since a well-typed `CacheEntry` always parses. -/
def readCache (now : Int) (store : Option CacheEntry) : Option (List Event) :=
  match store with
  | none => none
  | some e => if now - e.ts > CACHE_MS then none else some e.data

/-- `writeCache` (lines 97-99): overwrite with `{ ts: Date.now(), data }`. -/
def writeCache (now : Int) (data : List Event) : CacheEntry :=
  { ts := now, data := data }

/-- The observable result of `renderGrid`: the empty list renders the
call-to-action fallback (lines 103-120), otherwise the card list. -/
inductive RenderState where
  | cta
  | cards (videos : List Event)
deriving Repr, DecidableEq

/-- `renderGrid` (lines 101-142), abstracted to its observable branch:
`if (!videos.length)` renders the CTA block, else one card per video. -/
def renderGrid (videos : List Event) : RenderState :=
  if videos.isEmpty then RenderState.cta else RenderState.cards videos

/-- `loadFromCache` (lines 144-152).  In JS, `if (cached)` tests truthiness of
the array returned by `readCache`; an array is truthy even when empty, so any
non-`null` read is a hit.  Returns the JS boolean result together with what
was rendered (if anything). -/
def loadFromCache (now : Int) (store : Option CacheEntry) : Bool × Option RenderState :=
  match readCache now store with
  | some cached => (true, some (renderGrid cached))
  | none => (false, none)

/-- `MAX_RESULTS = Math.min(parseInt(attr || '12', 10), 50)` (line 22), with
the attribute abstracted to its parsed integer value (`none` = attribute
absent, defaulting to `'12'`). -/
def MAX_RESULTS (dataMaxResults : Option Int) : Int :=
  min (dataMaxResults.getD 12) 50

/-- The `liveStreamingDetails` object of a details-endpoint item, each time
field optional. -/
structure LiveStreamingDetails where
  scheduledStartTime : Option Int
  actualStartTime : Option Int
  actualEndTime : Option Int
deriving Repr, DecidableEq

/-- A details-endpoint (`/youtube/v3/videos`) response item, reduced to the
fields the widget reads.  `thumb` stands for the already-selected thumbnail
URL (`thumbUrl(v)`). -/
structure RawVideo where
  id : String
  title : Option String
  desc : Option String
  thumb : String
  channelTitle : Option String
  liveStreamingDetails : Option LiveStreamingDetails
deriving Repr, DecidableEq

/-- The normalization map of `fetchUpcoming` (lines 191-206):
`const lsd = v?.liveStreamingDetails || {}` and `lsd?.field || null` for each
time field; `v?.snippet?.title || 'Untitled'`, `v?.snippet?.description || ''`,
`v?.snippet?.channelTitle || ''`. -/
def normalize (v : RawVideo) : Event :=
  let lsd := v.liveStreamingDetails.getD ⟨none, none, none⟩
  { id := v.id
    title := v.title.getD "Untitled"
    desc := v.desc.getD ""
    thumb := v.thumb
    scheduled := lsd.scheduledStartTime
    actualStart := lsd.actualStartTime
    actualEnd := lsd.actualEndTime
    channelTitle := v.channelTitle.getD "" }

/-- A search-endpoint response item: `i.id?.videoId`, possibly absent. -/
structure SearchItem where
  videoId : Option String
deriving Repr, DecidableEq

/-- Outcome of one remote call: `failure` covers a non-ok HTTP status
(`!res.ok`, e.g. 403) and a network error rejecting the `fetch` promise —
both reach the `catch` handler; `success` carries the parsed item list. -/
inductive RemoteResp (α : Type) where
  | failure
  | success (items : List α)
deriving Repr, DecidableEq

/-- The observable outcome of one `fetchUpcoming` run: a normal completion
rendering `videos` (`renderGrid(videos)`), or the `catch` handler's error
state (error status text plus error markup). -/
inductive FetchOutcome where
  | rendered (videos : List Event)
  | remoteCallError
deriving Repr, DecidableEq

/-- `(searchData.items || []).map(i => i.id?.videoId).filter(Boolean)`:
drop absent ids, and drop empty strings (falsy in JS). -/
def searchIds (items : List SearchItem) : List String :=
  (items.filterMap SearchItem.videoId).filter (fun s => !s.isEmpty)

/-- The `fetchUpcoming` orchestrator (lines 155-231), as a function of the
outcomes of its two remote calls and the prior cache contents.  Returns the
observable outcome and the cache contents afterwards.  Mirrors the source:
search failure throws to the `catch` handler (cache untouched); zero ids
short-circuits, rendering `[]` and writing `[]` to the cache without issuing
the details request; details failure throws to `catch` (cache untouched);
otherwise normalize, filter, sort, render and cache the result. -/
def fetchUpcoming (searchResp : RemoteResp SearchItem) (videosResp : RemoteResp RawVideo)
    (now : Int) (hidePastHours : Nat) (cache : Option CacheEntry) :
    FetchOutcome × Option CacheEntry :=
  match searchResp with
  | RemoteResp.failure => (FetchOutcome.remoteCallError, cache)
  | RemoteResp.success items =>
    if (searchIds items).isEmpty then
      (FetchOutcome.rendered [], some (writeCache now []))
    else
      match videosResp with
      | RemoteResp.failure => (FetchOutcome.remoteCallError, cache)
      | RemoteResp.success vitems =>
        let detailed := filterSort now hidePastHours (vitems.map normalize)
        (FetchOutcome.rendered detailed, some (writeCache now detailed))

/-- A sample event record with every time field null, used to instantiate
theorems at concrete inputs. -/
def sampleEvent : Event :=
  { id := "vid1", title := "Sunday Service", desc := "", thumb := "",
    scheduled := none, actualStart := none, actualEnd := none, channelTitle := "" }

/-- A sample details-endpoint item with no `liveStreamingDetails` object. -/
def sampleRaw : RawVideo :=
  { id := "vid1", title := none, desc := none, thumb := "",
    channelTitle := none, liveStreamingDetails := none }

/-! ### Helper lemmas about the sort preorder and the pipeline -/

/-- `schedKeyLe` is transitive. -/
theorem schedKeyLe_trans (a b c : Event) (hab : schedKeyLe a b = true)
    (hbc : schedKeyLe b c = true) : schedKeyLe a c = true := by
  unfold schedKeyLe at *
  rcases ha : a.scheduled with _ | ta <;> rcases hb : b.scheduled with _ | tb <;>
    rcases hc : c.scheduled with _ | tc <;> simp_all <;> omega

/-- `schedKeyLe` is total. -/
theorem schedKeyLe_total (a b : Event) : schedKeyLe a b || schedKeyLe b a := by
  unfold schedKeyLe
  rcases a.scheduled with _ | ta <;> rcases b.scheduled with _ | tb <;> simp <;> omega

/-- Membership in the filter-and-sort output. -/
theorem mem_filterSort {x : Event} {l : List Event} {now : Int} {g : Nat} :
    x ∈ filterSort now g l ↔ x ∈ l ∧ freshPred now (hidePastMs g) x = true := by
  unfold filterSort
  rw [List.mem_mergeSort, List.mem_filter]

/-- The filter-and-sort output is pairwise ordered by the sort preorder. -/
theorem filterSort_pairwise (l : List Event) (now : Int) (g : Nat) :
    (filterSort now g l).Pairwise (fun a b => schedKeyLe a b = true) :=
  List.sorted_mergeSort schedKeyLe_trans schedKeyLe_total _

/-! ### Claims -/

/-- Claim C1: for every input sequence of event records, every "now"
timestamp and every non-negative grace period, an event whose actual-end
field is non-null is excluded from the output of the freshness filter,
regardless of the values of its other fields. -/
theorem ended_event_excluded (l : List Event) (now : Int) (g : Nat) (ev : Event)
    (h : ev.actualEnd.isSome = true) : ev ∉ filterSort now g l := by
  intro hmem
  have h2 := (mem_filterSort.mp hmem).2
  unfold freshPred at h2
  rw [h] at h2
  simp at h2

/-- Witness for C1 at a concrete ended event and singleton input list. -/
theorem ended_event_excluded_witness :
    ({ sampleEvent with actualEnd := some 0 } : Event) ∉
      filterSort 0 0 [{ sampleEvent with actualEnd := some 0 }] :=
  ended_event_excluded _ 0 0 _ rfl

/-- Claim C2: for every grace period g ≥ 0 (hours) and "now" timestamp T, an
event with actual-end null, actual-start null and scheduled-start
T − g·hour − 1 hour is excluded by the freshness filter, while an otherwise
identical event with scheduled-start T − g·hour + 1 hour is retained. -/
theorem stale_boundary (T : Int) (g : Nat) (ev : Event)
    (hEnd : ev.actualEnd = none) (hStart : ev.actualStart = none) :
    freshPred T (hidePastMs g)
        { ev with scheduled := some (T - (g : Int) * msPerHour - msPerHour) } = false
    ∧ freshPred T (hidePastMs g)
        { ev with scheduled := some (T - (g : Int) * msPerHour + msPerHour) } = true := by
  unfold freshPred hidePastMs msPerHour
  simp [hEnd, hStart]
  omega

/-- Claim C3: for every input sequence, the output of the freshness filter
and sorter is ordered ascending by scheduled-start; every retained record
without a scheduled-start appears after every retained record that has one;
and two retained records that both lack a scheduled-start appear in the
output in the same relative order as in the input. -/
theorem filterSort_ordered_stable (l : List Event) (now : Int) (g : Nat) :
    (filterSort now g l).Pairwise (fun a b => schedKeyLe a b = true)
    ∧ (filterSort now g l).Pairwise (fun a b => a.scheduled = none → b.scheduled = none)
    ∧ (filterSort now g l).filter (fun e => e.scheduled.isNone)
        = (l.filter (freshPred now (hidePastMs g))).filter (fun e => e.scheduled.isNone) := by
  refine ⟨filterSort_pairwise l now g, ?_, ?_⟩
  · refine (filterSort_pairwise l now g).imp ?_
    intro a b hab ha
    unfold schedKeyLe at hab
    rw [ha] at hab
    rcases hb : b.scheduled with _ | tb
    · rfl
    · rw [hb] at hab
      simp at hab
  · unfold filterSort
    have hmemq : ∀ e ∈ (l.filter (freshPred now (hidePastMs g))).filter
        (fun e => e.scheduled.isNone), (fun e => e.scheduled.isNone) e = true :=
      fun e he => (List.mem_filter.mp he).2
    have hpair : ((l.filter (freshPred now (hidePastMs g))).filter
        (fun e => e.scheduled.isNone)).Pairwise (fun a b => schedKeyLe a b = true) := by
      apply List.pairwise_of_forall_mem_list
      intro a ha b hb
      have ha' := hmemq a ha
      have hb' := hmemq b hb
      simp only [Option.isNone_iff_eq_none] at ha' hb'
      unfold schedKeyLe
      rw [ha', hb']
    have hsub : List.Sublist
        ((l.filter (freshPred now (hidePastMs g))).filter (fun e => e.scheduled.isNone))
        ((l.filter (freshPred now (hidePastMs g))).mergeSort schedKeyLe) :=
      List.sublist_mergeSort schedKeyLe_trans schedKeyLe_total hpair (List.filter_sublist _)
    have hcq : ((l.filter (freshPred now (hidePastMs g))).filter
        (fun e => e.scheduled.isNone)).filter (fun e => e.scheduled.isNone)
        = (l.filter (freshPred now (hidePastMs g))).filter (fun e => e.scheduled.isNone) :=
      List.filter_eq_self.mpr hmemq
    have hsub2 : List.Sublist
        ((l.filter (freshPred now (hidePastMs g))).filter (fun e => e.scheduled.isNone))
        (((l.filter (freshPred now (hidePastMs g))).mergeSort schedKeyLe).filter
            (fun e => e.scheduled.isNone)) := by
      have h3 := hsub.filter (fun e => e.scheduled.isNone)
      rwa [hcq] at h3
    have hperm : List.Perm
        (((l.filter (freshPred now (hidePastMs g))).mergeSort schedKeyLe).filter
          (fun e => e.scheduled.isNone))
        ((l.filter (freshPred now (hidePastMs g))).filter (fun e => e.scheduled.isNone)) :=
      (List.mergeSort_perm _ _).filter _
    exact (hsub2.eq_of_length hperm.length_eq.symm).symm

/-- Claim C4: the freshness filter and sorter is idempotent: applying it to
its own output (same "now" and grace period) yields the same sequence. -/
theorem filterSort_idem (l : List Event) (now : Int) (g : Nat) :
    filterSort now g (filterSort now g l) = filterSort now g l := by
  unfold filterSort
  have h1 : ((l.filter (freshPred now (hidePastMs g))).mergeSort schedKeyLe).filter
      (freshPred now (hidePastMs g))
      = (l.filter (freshPred now (hidePastMs g))).mergeSort schedKeyLe :=
    List.filter_eq_self.mpr
      (fun a ha => (List.mem_filter.mp (List.mem_mergeSort.mp ha)).2)
  rw [h1]
  exact List.mergeSort_of_sorted
    (List.sorted_mergeSort schedKeyLe_trans schedKeyLe_total _)

/-- Witness for C2 at T = 0, g = 0 and a concrete event. -/
theorem stale_boundary_witness :
    freshPred 0 (hidePastMs 0)
        { sampleEvent with scheduled := some ((0 : Int) - ((0 : Nat) : Int) * msPerHour - msPerHour) } = false
    ∧ freshPred 0 (hidePastMs 0)
        { sampleEvent with scheduled := some ((0 : Int) - ((0 : Nat) : Int) * msPerHour + msPerHour) } = true :=
  stale_boundary 0 0 sampleEvent rfl rfl

/-- Claim C5: after `write(key, P)` at time T, a read at
T + expiry − 1 ms returns P and a read at T + expiry + 1 ms returns absent,
the expiry threshold being the fixed constant of 5 minutes. -/
theorem cache_roundtrip (P : List Event) (T : Int) :
    readCache (T + CACHE_MS - 1) (some (writeCache T P)) = some P
    ∧ readCache (T + CACHE_MS + 1) (some (writeCache T P)) = none
    ∧ CACHE_MS = 5 * 60 * 1000 := by
  refine ⟨?_, ?_, rfl⟩
  · have h : ¬(T + CACHE_MS - 1 - T > CACHE_MS) := by omega
    simp [readCache, writeCache, h]
  · have h : T + CACHE_MS + 1 - T > CACHE_MS := by omega
    simp [readCache, writeCache, h]

/-- Claim C6: when the search stage yields zero video identifiers, the
orchestrator renders the empty sequence (the CTA, not an error), writes an
empty payload to the cache, and its result does not depend on the details
endpoint at all (the details request is never observable). -/
theorem empty_search_short_circuit (items : List SearchItem)
    (videosResp videosResp' : RemoteResp RawVideo) (now : Int) (g : Nat)
    (cache : Option CacheEntry) (hEmpty : searchIds items = []) :
    fetchUpcoming (RemoteResp.success items) videosResp now g cache
      = (FetchOutcome.rendered [], some (writeCache now []))
    ∧ fetchUpcoming (RemoteResp.success items) videosResp now g cache
      = fetchUpcoming (RemoteResp.success items) videosResp' now g cache
    ∧ FetchOutcome.rendered ([] : List Event) ≠ FetchOutcome.remoteCallError
    ∧ renderGrid [] = RenderState.cta := by
  simp [fetchUpcoming, hEmpty, renderGrid]

/-- Witness for C6 with an empty search item list. -/
theorem empty_search_short_circuit_witness :
    fetchUpcoming (RemoteResp.success []) RemoteResp.failure 0 0 none
      = (FetchOutcome.rendered [], some (writeCache 0 []))
    ∧ fetchUpcoming (RemoteResp.success []) RemoteResp.failure 0 0 none
      = fetchUpcoming (RemoteResp.success []) (RemoteResp.success []) 0 0 none
    ∧ FetchOutcome.rendered ([] : List Event) ≠ FetchOutcome.remoteCallError
    ∧ renderGrid [] = RenderState.cta :=
  empty_search_short_circuit [] RemoteResp.failure (RemoteResp.success []) 0 0 none rfl

/-- Claim C7: on any remote-call failure (search failure, or details failure
after a non-empty id list), the orchestrator reports the distinguishable
error state and leaves the cache unchanged, so a subsequent read at any time
returns exactly what it would have returned before the fetch. -/
theorem remote_failure_preserves_cache (searchResp : RemoteResp SearchItem)
    (videosResp : RemoteResp RawVideo) (now : Int) (g : Nat) (cache : Option CacheEntry)
    (hFail : searchResp = RemoteResp.failure
      ∨ ∃ items, searchResp = RemoteResp.success items
          ∧ searchIds items ≠ [] ∧ videosResp = RemoteResp.failure) :
    fetchUpcoming searchResp videosResp now g cache = (FetchOutcome.remoteCallError, cache)
    ∧ ∀ t, readCache t (fetchUpcoming searchResp videosResp now g cache).2
        = readCache t cache := by
  have hmain : fetchUpcoming searchResp videosResp now g cache
      = (FetchOutcome.remoteCallError, cache) := by
    rcases hFail with h | ⟨items, hS, hne, hV⟩
    · rw [h]
      rfl
    · rw [hS, hV]
      simp [fetchUpcoming, List.isEmpty_iff, hne]
  exact ⟨hmain, fun t => by rw [hmain]⟩

/-- Witness for C7 at a failing search call. -/
theorem remote_failure_preserves_cache_witness :
    fetchUpcoming RemoteResp.failure RemoteResp.failure 0 0 (some (writeCache 0 []))
      = (FetchOutcome.remoteCallError, some (writeCache 0 []))
    ∧ ∀ t, readCache t (fetchUpcoming RemoteResp.failure RemoteResp.failure 0 0
          (some (writeCache 0 []))).2
        = readCache t (some (writeCache 0 [])) :=
  remote_failure_preserves_cache RemoteResp.failure RemoteResp.failure 0 0
    (some (writeCache 0 [])) (Or.inl rfl)

/-- Claim C8: for every value of the maximum-results configuration input the
effective maximum is at most 50, and an absent input defaults to 12. -/
theorem max_results_clamped :
    (∀ v : Option Int, MAX_RESULTS v ≤ 50) ∧ MAX_RESULTS none = 12 := by
  constructor
  · intro v
    exact min_le_right _ _
  · decide

/-- Claim C9: a details-endpoint record lacking a `liveStreamingDetails`
object normalizes to an event with scheduled-start, actual-start and
actual-end all null; such an event is always retained by the freshness
filter, and in the sorted output it appears after every event that has a
scheduled-start. -/
theorem missing_lsd_normalized (v : RawVideo) (h : v.liveStreamingDetails = none) :
    (normalize v).scheduled = none
    ∧ (normalize v).actualStart = none
    ∧ (normalize v).actualEnd = none
    ∧ (∀ now hideMs : Int, freshPred now hideMs (normalize v) = true)
    ∧ (∀ (now : Int) (g : Nat) (l : List Event),
        normalize v ∈ l → normalize v ∈ filterSort now g l)
    ∧ (∀ (now : Int) (g : Nat) (l : List Event) (i j : Nat)
        (hi : i < (filterSort now g l).length) (hj : j < (filterSort now g l).length),
        (filterSort now g l)[j] = normalize v →
        ((filterSort now g l)[i]).scheduled.isSome = true → i < j) := by
  have hsched : (normalize v).scheduled = none := by simp [normalize, h]
  have hstart : (normalize v).actualStart = none := by simp [normalize, h]
  have hend : (normalize v).actualEnd = none := by simp [normalize, h]
  have hfresh : ∀ now hideMs : Int, freshPred now hideMs (normalize v) = true := by
    intro now hideMs
    simp [freshPred, hend, hsched]
  refine ⟨hsched, hstart, hend, hfresh, ?_, ?_⟩
  · intro now g l hmem
    exact mem_filterSort.mpr ⟨hmem, hfresh now (hidePastMs g)⟩
  · intro now g l i j hi hj hjv hisome
    have hpair := filterSort_pairwise l now g
    rw [List.pairwise_iff_getElem] at hpair
    rcases Nat.lt_trichotomy i j with hlt | heq | hgt
    · exact hlt
    · exfalso
      subst heq
      rw [hjv, hsched] at hisome
      simp at hisome
    · exfalso
      have hle := hpair j i hj hi hgt
      rw [hjv] at hle
      rcases hsi : ((filterSort now g l)[i]).scheduled with _ | t
      · rw [hsi] at hisome
        simp at hisome
      · simp [schedKeyLe, hsched, hsi] at hle

/-- Witness for C9 at a concrete raw video lacking `liveStreamingDetails`. -/
theorem missing_lsd_normalized_witness :
    (normalize sampleRaw).scheduled = none
    ∧ (normalize sampleRaw).actualStart = none
    ∧ (normalize sampleRaw).actualEnd = none
    ∧ (∀ now hideMs : Int, freshPred now hideMs (normalize sampleRaw) = true)
    ∧ (∀ (now : Int) (g : Nat) (l : List Event),
        normalize sampleRaw ∈ l → normalize sampleRaw ∈ filterSort now g l)
    ∧ (∀ (now : Int) (g : Nat) (l : List Event) (i j : Nat)
        (hi : i < (filterSort now g l).length) (hj : j < (filterSort now g l).length),
        (filterSort now g l)[j] = normalize sampleRaw →
        ((filterSort now g l)[i]).scheduled.isSome = true → i < j) :=
  missing_lsd_normalized sampleRaw rfl

/-- Claim C10: a fresh cache entry whose payload is the empty sequence is a
cache hit, not absent: the optimistic load returns true and renders the
empty-state CTA, through exactly the same path as any cached payload. -/
theorem empty_cache_hit (T Tr : Int) (h : Tr - T ≤ CACHE_MS) :
    loadFromCache Tr (some (writeCache T [])) = (true, some RenderState.cta)
    ∧ ∀ P : List Event, loadFromCache Tr (some (writeCache T P))
        = (true, some (renderGrid P)) := by
  have hread : ∀ P : List Event, readCache Tr (some (writeCache T P)) = some P := by
    intro P
    have h2 : ¬(Tr - T > CACHE_MS) := by omega
    simp [readCache, writeCache, h2]
  constructor
  · unfold loadFromCache
    rw [hread []]
    rfl
  · intro P
    unfold loadFromCache
    rw [hread P]

/-- Witness for C10 at a write and read both at time 0. -/
theorem empty_cache_hit_witness :
    loadFromCache 0 (some (writeCache 0 [])) = (true, some RenderState.cta)
    ∧ ∀ P : List Event, loadFromCache 0 (some (writeCache 0 P))
        = (true, some (renderGrid P)) :=
  empty_cache_hit 0 0 (by decide)

end VUMCLive
